import Mathlib

/-!
# Verification of the NASA asteroid dashboard's filter-aggregate pipeline

Shallow embedding of `src/streamlit_app.py`. Tabular (pandas) data is
modelled as a `List` of records; each numeric column is a rational number
(the dashboard's arithmetic — comparisons, min, mean, scaling — is exact on
the values involved, so `ℚ` is the faithful idealisation of the float
columns). Boolean masks over a DataFrame become `List.filter`, pandas
`drop_duplicates(keep='first')` becomes a first-occurrence deduplication,
and `groupby ... agg` becomes a map over the distinct keys.
-/

/-- One row of the `asteroids` query result (columns selected at lines
74-87 of `streamlit_app.py`). Field names follow the source's column
names. -/
structure ARecord where
  id : String
  name : String
  close_approach_date : String
  miss_distance_km : ℚ
  velocity_km_s : ℚ
  is_potentially_hazardous : Bool
  min_diameter_km : ℚ
  max_diameter_km : ℚ
  deriving DecidableEq, Repr

/-- The deduplication key of line 92: `subset=["id", "close_approach_date"]`. -/
def keyOf (r : ARecord) : String × String :=
  (r.id, r.close_approach_date)

/-- Worker for `drop_duplicates` carrying the set of keys already seen.
pandas' default `keep='first'` keeps the first row with each key and drops
every later row whose key was already seen. -/
def dedupAux (seen : List (String × String)) : List ARecord → List ARecord
  | [] => []
  | r :: rs =>
    if keyOf r ∈ seen then dedupAux seen rs
    else r :: dedupAux (keyOf r :: seen) rs

/-- Line 92: `df = df.drop_duplicates(subset=["id", "close_approach_date"])`. -/
def drop_duplicates (df : List ARecord) : List ARecord :=
  dedupAux [] df

/-- The sidebar's "Asteroid Type" selectbox (lines 96-99); constructor
names follow its three option strings. -/
inductive HazardFilter
  | All
  | PotentiallyHazardous
  | NonHazardous
  deriving DecidableEq, Repr

/-- Lines 137-141: the hazard mask. With "All" no mask is applied
(`filtered_df = df.copy()` only); otherwise rows are kept when the
`is_potentially_hazardous` column equals the requested boolean. -/
def hazardFiltered (mode : HazardFilter) (df : List ARecord) : List ARecord :=
  match mode with
  | .All => df
  | .PotentiallyHazardous => df.filter fun r => r.is_potentially_hazardous == true
  | .NonHazardous => df.filter fun r => r.is_potentially_hazardous == false

/-- Line 143: `filtered_df[filtered_df['miss_distance_km'] <= max_distance * 1_000_000]`.
`max_distance` is the slider value in millions of km. -/
def distanceFiltered (max_distance : ℚ) (df : List ARecord) : List ARecord :=
  df.filter fun r => decide (r.miss_distance_km ≤ max_distance * 1000000)

/-- Lines 144-147: conjunction of the two velocity masks
(`velocity_km_s >= velocity_range[0]` and `<= velocity_range[1]`). -/
def velocityFiltered (velocity_range : ℚ × ℚ) (df : List ARecord) : List ARecord :=
  df.filter fun r =>
    decide (velocity_range.1 ≤ r.velocity_km_s) && decide (r.velocity_km_s ≤ velocity_range.2)

/-- Lines 136-147: the whole filter pipeline, hazard mask then distance
mask then velocity mask, each applied to the previous stage's output. -/
def filtered_df (df : List ARecord) (mode : HazardFilter) (max_distance : ℚ)
    (velocity_range : ℚ × ℚ) : List ARecord :=
  velocityFiltered velocity_range (distanceFiltered max_distance (hazardFiltered mode df))

/-! ## Metrics row (lines 150-161) -/

/-- `pandas.Series.min` over a non-empty column, here written as a fold;
the `[]` case is never reached by the dashboard (guarded by `len > 0`). -/
def listMin : List ℚ → ℚ
  | [] => 0
  | x :: xs => xs.foldl min x

/-- `pandas.Series.max` over a non-empty column. -/
def listMax : List ℚ → ℚ
  | [] => 0
  | x :: xs => xs.foldl max x

/-- Line 152: `st.metric("Total Asteroids", len(filtered_df))`. -/
def total_asteroids (df : List ARecord) : ℕ :=
  df.length

/-- Line 154: `len(filtered_df[filtered_df['is_potentially_hazardous'] == True])`. -/
def hazardous_count (df : List ARecord) : ℕ :=
  (df.filter fun r => r.is_potentially_hazardous == true).length

/-- Line 157: `closest = filtered_df['miss_distance_km'].min() if len(filtered_df) > 0 else 0`. -/
def closest (df : List ARecord) : ℚ :=
  if df.length > 0 then listMin (df.map (·.miss_distance_km)) else 0

/-- Line 158: `f"{closest/1_000_000:.2f}M km" if closest > 0 else "N/A"`.
`none` stands for the sentinel string `"N/A"`; `some v` for the numeric
display of `v` million km (the `.2f` string formatting itself is
presentation, not modelled). Note the branch tests `closest > 0`, not
`len(filtered_df) > 0`. -/
def closestDisplay (df : List ARecord) : Option ℚ :=
  if closest df > 0 then some (closest df / 1000000) else none

/-- Line 160: `avg_velocity = filtered_df['velocity_km_s'].mean() if len(filtered_df) > 0 else 0`. -/
def avg_velocity (df : List ARecord) : ℚ :=
  if df.length > 0 then (df.map (·.velocity_km_s)).sum / df.length else 0

/-! ## Rounding

`pandas.Series.round(2)` and Python's `round(x, 2)` both round half to
even. On the exact rational model this is: scale by 100, round half to
even to an integer, scale back. -/

/-- Round a rational to the nearest integer, ties to the even integer. -/
def roundHalfEven (q : ℚ) : ℤ :=
  if q - ⌊q⌋ < 1/2 then ⌊q⌋
  else if q - ⌊q⌋ > 1/2 then ⌊q⌋ + 1
  else if ⌊q⌋ % 2 = 0 then ⌊q⌋ else ⌊q⌋ + 1

/-- Round to 2 decimal places (`round(x, 2)` / `.round(2)`). -/
def round2 (q : ℚ) : ℚ :=
  (roundHalfEven (q * 100) : ℚ) / 100

/-! ## Velocity slider (lines 109-128) -/

/-- Lines 109-120: bounds of the "Velocity Range (km/s)" slider. With at
least one record they are the column's min floored to 2 decimals and max
ceiled to 2 decimals, the max pushed up to keep a visible range; with no
records the fallback constants `0.0, 100.0` of line 120 are used. -/
def sliderBounds (df : List ARecord) : ℚ × ℚ :=
  if df.length > 0 then
    let velocity_min := listMin (df.map (·.velocity_km_s))
    let velocity_max := listMax (df.map (·.velocity_km_s))
    let slider_min := (⌊velocity_min * 100⌋ : ℚ) / 100
    let slider_max := (⌈velocity_max * 100⌉ : ℚ) / 100
    if slider_max - slider_min < 1/100 then (slider_min, round2 (slider_min + 1/100))
    else (slider_min, slider_max)
  else (0, 100)

/-- Lines 122-128: the slider call itself. It is executed unconditionally
and always returns a pair (its default value is the full `sliderBounds`
range), so the result is always `some`: a velocity range is present for
every record set, including the empty one. -/
def velocityRange? (df : List ARecord) : Option (ℚ × ℚ) :=
  some (sliderBounds df)

/-! ## Daily aggregation (lines 170-181) -/

/-- One row of the `daily_counts` frame built at lines 172-180:
`count=('id','size')`, `hazardous=('is_potentially_hazardous','sum')`,
`avg_distance=('miss_distance_km','mean')`. -/
structure DailyRow where
  close_approach_date : String
  count : ℕ
  hazardous : ℕ
  avg_distance : ℚ
  deriving DecidableEq, Repr

/-- The aggregate row of one `groupby('close_approach_date')` group:
its size, the sum of its boolean hazard column, and the mean of its
miss-distance column. -/
def dailyRowOf (df : List ARecord) (d : String) : DailyRow :=
  let g := df.filter fun r => r.close_approach_date == d
  { close_approach_date := d
    count := g.length
    hazardous := (g.map fun r => if r.is_potentially_hazardous then 1 else 0).sum
    avg_distance := (g.map (·.miss_distance_km)).sum / g.length }

/-- Lines 172-180: `filtered_df.groupby('close_approach_date').agg(...)`,
one output row per distinct `close_approach_date` value. (pandas emits
the groups sorted by key; the spec leaves group order unspecified and no
claim depends on it, so the distinct keys are listed via `List.dedup`.) -/
def daily_counts (df : List ARecord) : List DailyRow :=
  ((df.map (·.close_approach_date)).dedup).map (dailyRowOf df)

/-! ## Sorting (`DataFrame.sort_values` on one column)

pandas sorts a single column through `nargsort`: for `ascending=True` it
is `column.argsort(kind='quicksort')`; for `ascending=False` the column
is reversed, argsorted, and the resulting indexer reversed again. numpy's
`quicksort` is introsort, which for the sizes this dashboard handles
(at most a week of approaches; numpy switches to a stable insertion sort
below 16 elements) behaves as a stable ascending sort; beyond that regime
numpy documents the tie order as unspecified. The model below is the
stable insertion sort; no theorem in this file relies on the tie order of
a descending sort. -/

/-- `a` precedes `b` when its `miss_distance_km` is no larger. -/
def missLE (a b : ARecord) : Prop :=
  a.miss_distance_km ≤ b.miss_distance_km

instance : DecidableRel missLE := fun a b =>
  inferInstanceAs (Decidable (a.miss_distance_km ≤ b.miss_distance_km))

/-- `a` precedes `b` when its `max_diameter_km` is no larger. -/
def diamLE (a b : ARecord) : Prop :=
  a.max_diameter_km ≤ b.max_diameter_km

instance : DecidableRel diamLE := fun a b =>
  inferInstanceAs (Decidable (a.max_diameter_km ≤ b.max_diameter_km))

/-- Line 325: `filtered_df.sort_values('miss_distance_km')` (ascending). -/
def sortByMissAsc (df : List ARecord) : List ARecord :=
  List.insertionSort missLE df

/-- Line 288: `filtered_df.sort_values("max_diameter_km", ascending=False)`:
pandas reverses the column, argsorts ascending, and reverses the indexer. -/
def sortByDiamDesc (df : List ARecord) : List ARecord :=
  (List.insertionSort diamLE df.reverse).reverse

/-- Lines 287-291: the top-N frame, `sort_values(..., ascending=False).head(top_n)`. -/
def topn_df (df : List ARecord) (top_n : ℕ) : List ARecord :=
  (sortByDiamDesc df).take top_n

/-! ## Display projection (lines 325-338) -/

/-- One row of the table at lines 328-338, after the column selection and
renaming: the derived `Miss Distance (M km)` column (line 326) and the
derived `Potentially Hazardous` label column (line 327) replace the raw
`miss_distance_km` and boolean columns. -/
structure DisplayRow where
  name : String
  close_approach_date : String
  miss_distance_Mkm : ℚ
  velocity_km_s : ℚ
  hazardous_label : String
  min_diameter_km : ℚ
  max_diameter_km : ℚ
  deriving DecidableEq, Repr

/-- Lines 326-327 applied to one row: `(miss_distance_km / 1_000_000).round(2)`
and `is_potentially_hazardous.map({True: 'Yes', False: 'No'})`. -/
def toDisplayRow (r : ARecord) : DisplayRow :=
  { name := r.name
    close_approach_date := r.close_approach_date
    miss_distance_Mkm := round2 (r.miss_distance_km / 1000000)
    velocity_km_s := r.velocity_km_s
    hazardous_label := if r.is_potentially_hazardous then "Yes" else "No"
    min_diameter_km := r.min_diameter_km
    max_diameter_km := r.max_diameter_km }

/-- Lines 325-338: the displayed table, the filtered set sorted by
`miss_distance_km` ascending with the two derived columns. -/
def display_df (df : List ARecord) : List DisplayRow :=
  (sortByMissAsc df).map toDisplayRow

/-! ## Helper lemmas -/

theorem foldl_min_le_init (xs : List ℚ) (x : ℚ) : xs.foldl min x ≤ x := by
  induction xs generalizing x with
  | nil => exact le_refl x
  | cons y ys ih => exact le_trans (ih (min x y)) (min_le_left x y)

theorem foldl_min_le_mem {y : ℚ} {xs : List ℚ} (x : ℚ) (h : y ∈ xs) :
    xs.foldl min x ≤ y := by
  induction xs generalizing x with
  | nil => cases h
  | cons z zs ih =>
    rcases List.mem_cons.1 h with rfl | hz
    · exact le_trans (foldl_min_le_init zs (min x y)) (min_le_right x y)
    · exact ih (min x z) hz

theorem foldl_min_eq_or_mem (xs : List ℚ) (x : ℚ) :
    xs.foldl min x = x ∨ xs.foldl min x ∈ xs := by
  induction xs generalizing x with
  | nil => exact Or.inl rfl
  | cons y ys ih =>
    rcases ih (min x y) with h | h
    · rcases min_choice x y with hc | hc
      · exact Or.inl (by rw [List.foldl_cons, h, hc])
      · exact Or.inr (by rw [List.foldl_cons, h, hc]; exact List.mem_cons_self y ys)
    · exact Or.inr (List.mem_cons_of_mem y h)

theorem listMin_le_mem {q : ℚ} {l : List ℚ} (h : q ∈ l) : listMin l ≤ q := by
  match l with
  | [] => cases h
  | x :: xs =>
    rcases List.mem_cons.1 h with rfl | hx
    · exact foldl_min_le_init xs q
    · exact foldl_min_le_mem x hx

theorem listMin_mem {l : List ℚ} (h : l ≠ []) : listMin l ∈ l := by
  match l with
  | [] => exact absurd rfl h
  | x :: xs =>
    rcases foldl_min_eq_or_mem xs x with h' | h'
    · rw [listMin, h']; exact List.mem_cons_self x xs
    · exact List.mem_cons_of_mem x h'

theorem dedupAux_sublist (seen : List (String × String)) (df : List ARecord) :
    (dedupAux seen df).Sublist df := by
  induction df generalizing seen with
  | nil => exact List.Sublist.refl []
  | cons r rs ih =>
    rw [dedupAux]
    by_cases h : keyOf r ∈ seen
    · simp only [h, if_true]
      exact List.Sublist.cons r (ih seen)
    · simp only [h, if_false]
      exact List.Sublist.cons₂ r (ih (keyOf r :: seen))

theorem mem_dedupAux_key_not_seen {r : ARecord} {seen : List (String × String)}
    {df : List ARecord} (h : r ∈ dedupAux seen df) : keyOf r ∉ seen := by
  induction df generalizing seen with
  | nil => cases h
  | cons a rs ih =>
    rw [dedupAux] at h
    by_cases ha : keyOf a ∈ seen
    · simp only [ha, if_true] at h
      exact ih h
    · simp only [ha, if_false] at h
      rcases List.mem_cons.1 h with rfl | h'
      · exact ha
      · intro hs
        exact ih h' (List.mem_cons_of_mem _ hs)

theorem dedupAux_keys_nodup (seen : List (String × String)) (df : List ARecord) :
    ((dedupAux seen df).map keyOf).Nodup := by
  induction df generalizing seen with
  | nil => exact List.nodup_nil
  | cons a rs ih =>
    rw [dedupAux]
    by_cases ha : keyOf a ∈ seen
    · simp only [ha, if_true]
      exact ih seen
    · simp only [ha, if_false, List.map_cons, List.nodup_cons]
      refine ⟨fun hmem => ?_, ih (keyOf a :: seen)⟩
      rcases List.mem_map.1 hmem with ⟨r, hr, hk⟩
      exact mem_dedupAux_key_not_seen hr (hk ▸ List.mem_cons_self _ _)

theorem dedupAux_filter_key (df : List ARecord) (seen : List (String × String))
    (k : String × String) :
    (dedupAux seen df).filter (fun r => decide (keyOf r = k)) =
      (if k ∈ seen then [] else (df.find? fun r => decide (keyOf r = k)).toList) := by
  induction df generalizing seen with
  | nil =>
    rw [dedupAux]
    by_cases hk : k ∈ seen <;> simp [hk]
  | cons a rs ih =>
    rw [dedupAux]
    by_cases ha : keyOf a ∈ seen
    · simp only [ha, if_true]
      rw [ih seen]
      by_cases hk : k ∈ seen
      · simp [hk]
      · have hne : ¬ (keyOf a = k) := fun h => hk (h ▸ ha)
        simp [hk, List.find?_cons, hne]
    · simp only [ha, if_false]
      by_cases hak : keyOf a = k
      · subst hak
        rw [List.filter_cons_of_pos (by simp)]
        rw [ih (keyOf a :: seen)]
        simp [ha, List.find?_cons]
      · rw [List.filter_cons_of_neg (by simp [hak])]
        rw [ih (keyOf a :: seen)]
        by_cases hk : k ∈ seen
        · simp [hk, List.mem_cons, hak, fun h : k = keyOf a => hak h.symm]
        · have : ¬ k ∈ keyOf a :: seen := by
            simp only [List.mem_cons, not_or]
            exact ⟨fun h => hak h.symm, hk⟩
          simp [this, hk, List.find?_cons, hak]

/-- The hazard stage is a sublist of its input for every mode. -/
theorem hazardFiltered_sublist (mode : HazardFilter) (df : List ARecord) :
    (hazardFiltered mode df).Sublist df := by
  cases mode with
  | All => exact List.Sublist.refl df
  | PotentiallyHazardous => exact List.filter_sublist df
  | NonHazardous => exact List.filter_sublist df

/-- C6: the hazard filter with `All` returns the input sequence unchanged in
content and order; with `PotentiallyHazardous` (resp. `NonHazardous`) it keeps
exactly the records whose `is_potentially_hazardous` flag is `true` (resp.
`false`), as a subsequence of the input. -/
theorem hazard_filter_spec (df : List ARecord) :
    hazardFiltered .All df = df ∧
    ((hazardFiltered .PotentiallyHazardous df).Sublist df ∧
      ∀ r : ARecord, r ∈ hazardFiltered .PotentiallyHazardous df ↔
        r ∈ df ∧ r.is_potentially_hazardous = true) ∧
    ((hazardFiltered .NonHazardous df).Sublist df ∧
      ∀ r : ARecord, r ∈ hazardFiltered .NonHazardous df ↔
        r ∈ df ∧ r.is_potentially_hazardous = false) := by
  refine ⟨rfl, ⟨List.filter_sublist df, fun r => ?_⟩, ⟨List.filter_sublist df, fun r => ?_⟩⟩ <;>
    simp [hazardFiltered, List.mem_filter]

/-- C4: for every record set and non-negative bound (in millions of km), the
distance filter keeps exactly the records with
`miss_distance_km ≤ max_distance * 1_000_000`: the million-to-km scale factor
is applied to the bound. -/
theorem distance_filter_spec (df : List ARecord) (max_distance : ℚ)
    (hnn : 0 ≤ max_distance) :
    (distanceFiltered max_distance df).Sublist df ∧
    ∀ r : ARecord, r ∈ distanceFiltered max_distance df ↔
      r ∈ df ∧ r.miss_distance_km ≤ max_distance * 1000000 := by
  refine ⟨List.filter_sublist df, fun r => ?_⟩
  simp [distanceFiltered, List.mem_filter]

/-- Record of the spec's §8 scenario passing at 0.5 million km. -/
def nearRecord : ARecord :=
  { id := "1", name := "Near", close_approach_date := "2025-01-01",
    miss_distance_km := 500000, velocity_km_s := 10,
    is_potentially_hazardous := false, min_diameter_km := 1/10, max_diameter_km := 1/2 }

/-- Record of the spec's §8 scenario passing at 40 million km. -/
def farRecord : ARecord :=
  { id := "2", name := "Far", close_approach_date := "2025-01-01",
    miss_distance_km := 40000000, velocity_km_s := 20,
    is_potentially_hazardous := true, min_diameter_km := 1, max_diameter_km := 3 }

/-- Witness for C4 at the concrete bound 10 million km and the two scenario
records. -/
theorem distance_filter_witness :
    (distanceFiltered 10 [nearRecord, farRecord]).Sublist [nearRecord, farRecord] ∧
    ∀ r : ARecord, r ∈ distanceFiltered 10 [nearRecord, farRecord] ↔
      r ∈ [nearRecord, farRecord] ∧ r.miss_distance_km ≤ 10 * 1000000 :=
  distance_filter_spec [nearRecord, farRecord] 10 (by norm_num)

/-- C10: every filter stage returns a subsequence of its input (surviving
records unmodified, original relative order kept), and the composed pipeline
output is a subsequence of the deduplicated Record Store snapshot. -/
theorem filter_stages_sublist (df : List ARecord) (mode : HazardFilter)
    (max_distance : ℚ) (velocity_range : ℚ × ℚ) :
    (hazardFiltered mode df).Sublist df ∧
    (distanceFiltered max_distance df).Sublist df ∧
    (velocityFiltered velocity_range df).Sublist df ∧
    (filtered_df df mode max_distance velocity_range).Sublist df ∧
    (filtered_df (drop_duplicates df) mode max_distance velocity_range).Sublist
      (drop_duplicates df) := by
  refine ⟨hazardFiltered_sublist mode df, List.filter_sublist df, List.filter_sublist df, ?_, ?_⟩ <;>
    exact (List.filter_sublist _).trans
      ((List.filter_sublist _).trans (hazardFiltered_sublist mode _))

/-- C9: the Record Store deduplicates on the key `(id, close_approach_date)`:
the result is a subsequence of the input, its keys are pairwise distinct, and
for every key the surviving records with that key are exactly the first input
record carrying it (later duplicates are the ones dropped). -/
theorem drop_duplicates_spec (df : List ARecord) :
    (drop_duplicates df).Sublist df ∧
    ((drop_duplicates df).map keyOf).Nodup ∧
    ∀ k : String × String,
      (drop_duplicates df).filter (fun r => decide (keyOf r = k)) =
        (df.find? fun r => decide (keyOf r = k)).toList := by
  refine ⟨dedupAux_sublist [] df, dedupAux_keys_nodup [] df, fun k => ?_⟩
  rw [drop_duplicates, dedupAux_filter_key df [] k]
  simp

/-- The closest-approach metric of a non-empty set bounds every member's
miss distance from below. -/
theorem closest_le_mem {df : List ARecord} {r : ARecord} (h : r ∈ df) :
    closest df ≤ r.miss_distance_km := by
  rw [closest, if_pos (List.length_pos.2 (List.ne_nil_of_mem h))]
  exact listMin_le_mem (List.mem_map_of_mem _ h)

/-- The closest-approach metric of a non-empty set is attained by a member. -/
theorem closest_mem {df : List ARecord} (h : df ≠ []) :
    ∃ r ∈ df, r.miss_distance_km = closest df := by
  rw [closest, if_pos (List.length_pos.2 h)]
  have hmm := listMin_mem (l := df.map (·.miss_distance_km))
    (fun hm => h (List.map_eq_nil_iff.1 hm))
  rcases List.mem_map.1 hmm with ⟨r, hr, he⟩
  exact ⟨r, hr, he⟩

/-- A record whose close approach grazes Earth: miss distance exactly 0 km. -/
def zeroMissRecord : ARecord :=
  { id := "z0", name := "Graze", close_approach_date := "2025-02-01",
    miss_distance_km := 0, velocity_km_s := 10,
    is_potentially_hazardous := false, min_diameter_km := 1/10, max_diameter_km := 1/2 }

/-- C1 counterexample: the claim says a minimum of exactly 0 km is reported
as the numeric value 0 and the sentinel appears only on the empty set; but on
the non-empty set `[zeroMissRecord]` the minimum is 0 and line 158's
`closest > 0` test still reports the `"N/A"` sentinel (`none`). -/
theorem closest_zero_sentinel_counterexample :
    ([zeroMissRecord] : List ARecord) ≠ [] ∧
    closest [zeroMissRecord] = 0 ∧
    closestDisplay [zeroMissRecord] = none := by
  refine ⟨by simp, by rfl, by rfl⟩

/-- C1 (amended): over a filtered set of non-negative miss distances, the
closest metric is the minimum of the miss distances when the set is
non-empty, and the `"N/A"` sentinel is reported iff the set is empty OR that
minimum equals 0 km (the code's `closest > 0` test conflates a zero distance
with absence); a positive minimum is displayed numerically, scaled to
millions of km. -/
theorem closest_metric_spec (df : List ARecord)
    (hnn : ∀ r ∈ df, 0 ≤ r.miss_distance_km) :
    (closestDisplay df = none ↔ df = [] ∨ closest df = 0) ∧
    (∀ r ∈ df, closest df ≤ r.miss_distance_km) ∧
    (df ≠ [] → ∃ r ∈ df, r.miss_distance_km = closest df) ∧
    (0 < closest df → closestDisplay df = some (closest df / 1000000)) := by
  have hdisp : closestDisplay df = none ↔ closest df ≤ 0 := by
    rw [closestDisplay]
    by_cases hpos : closest df > 0
    · simp [hpos, not_le.2 hpos]
    · simp [hpos, not_lt.1 hpos]
  have hzero : closest df ≤ 0 ↔ (df = [] ∨ closest df = 0) := by
    constructor
    · intro hle
      rcases eq_or_ne df [] with rfl | hne
      · exact Or.inl rfl
      · rcases closest_mem hne with ⟨r, hr, he⟩
        exact Or.inr (le_antisymm hle (he ▸ hnn r hr))
    · rintro (rfl | h0)
      · simp [closest]
      · rw [h0]
  exact ⟨hdisp.trans hzero, fun r hr => closest_le_mem hr, closest_mem,
    fun hpos => by rw [closestDisplay, if_pos hpos]⟩

/-- Witness for C1's amended theorem at the spec's §8 scenario set
`[nearRecord]`: minimum 500000 km, displayed as 0.5 million km. -/
theorem closest_metric_witness :
    (closestDisplay [nearRecord] = none ↔ ([nearRecord] : List ARecord) = [] ∨
      closest [nearRecord] = 0) ∧
    (∀ r ∈ [nearRecord], closest [nearRecord] ≤ r.miss_distance_km) ∧
    (([nearRecord] : List ARecord) ≠ [] →
      ∃ r ∈ [nearRecord], r.miss_distance_km = closest [nearRecord]) ∧
    (0 < closest [nearRecord] →
      closestDisplay [nearRecord] = some (closest [nearRecord] / 1000000)) :=
  closest_metric_spec [nearRecord] (by
    intro r hr
    rw [List.mem_singleton] at hr
    subst hr
    norm_num [nearRecord])

/-- C3: the pipeline never fails on an empty input: when the filter pipeline
produces the empty set, the metrics are total 0, hazardous 0, the closest
sentinel (`none`, rendered `"N/A"`), average velocity the numeric 0
(asymmetric with the distance sentinel), and the daily aggregate and top-N
outputs are empty sequences. -/
theorem empty_pipeline_spec (df : List ARecord) (mode : HazardFilter)
    (max_distance : ℚ) (velocity_range : ℚ × ℚ)
    (h : filtered_df df mode max_distance velocity_range = []) :
    total_asteroids (filtered_df df mode max_distance velocity_range) = 0 ∧
    hazardous_count (filtered_df df mode max_distance velocity_range) = 0 ∧
    closestDisplay (filtered_df df mode max_distance velocity_range) = none ∧
    avg_velocity (filtered_df df mode max_distance velocity_range) = 0 ∧
    daily_counts (filtered_df df mode max_distance velocity_range) = [] ∧
    ∀ top_n : ℕ, topn_df (filtered_df df mode max_distance velocity_range) top_n = [] := by
  rw [h]
  refine ⟨rfl, rfl, rfl, rfl, rfl, fun top_n => ?_⟩
  simp [topn_df, sortByDiamDesc]

/-- Witness for C3: the empty Record Store with the default criteria
(`All`, 80 million km, fallback velocity range). -/
theorem empty_pipeline_witness :
    total_asteroids (filtered_df [] .All 80 (0, 100)) = 0 ∧
    hazardous_count (filtered_df [] .All 80 (0, 100)) = 0 ∧
    closestDisplay (filtered_df [] .All 80 (0, 100)) = none ∧
    avg_velocity (filtered_df [] .All 80 (0, 100)) = 0 ∧
    daily_counts (filtered_df [] .All 80 (0, 100)) = [] ∧
    ∀ top_n : ℕ, topn_df (filtered_df [] .All 80 (0, 100)) top_n = [] :=
  empty_pipeline_spec [] .All 80 (0, 100) rfl

/-- C5 counterexample: the claim says a velocity range is present only when
records exist, but on the empty record set the slider is still rendered with
the fallback bounds of line 120 and still returns a range: `velocityRange?`
of the empty store is `some (0, 100)`, not absent. -/
theorem velocity_range_present_counterexample :
    velocityRange? ([] : List ARecord) = some (0, 100) := rfl

/-- C5 (amended): the velocity filter keeps exactly the records whose
`velocity_km_s` lies within the inclusive bounds, as a subsequence; however
the stage is applied unconditionally — a velocity range is always present
(`velocityRange?` is always `some`, with fallback bounds `(0, 100)` when no
records exist), and on the empty set the stage is vacuous. -/
theorem velocity_filter_spec (df : List ARecord) (velocity_range : ℚ × ℚ) :
    ((velocityFiltered velocity_range df).Sublist df ∧
      ∀ r : ARecord, r ∈ velocityFiltered velocity_range df ↔
        r ∈ df ∧ velocity_range.1 ≤ r.velocity_km_s ∧
          r.velocity_km_s ≤ velocity_range.2) ∧
    velocityRange? df = some (sliderBounds df) ∧
    velocityFiltered (sliderBounds []) [] = [] := by
  refine ⟨⟨List.filter_sublist df, fun r => ?_⟩, rfl, rfl⟩
  simp [velocityFiltered, List.mem_filter, and_assoc]

/-- Summing the 0/1 image of the boolean hazard column counts the hazardous
records (pandas sums `True` as 1). -/
theorem sum_bool_indicator (l : List ARecord) :
    ((l.map fun r => if r.is_potentially_hazardous then 1 else 0).sum : ℕ) =
      (l.filter fun r => r.is_potentially_hazardous).length := by
  induction l with
  | nil => rfl
  | cons a l ih =>
    cases h : a.is_potentially_hazardous with
    | true => simp [List.filter_cons, h, ih, Nat.add_comm]
    | false => simp [List.filter_cons, h, ih]

/-- Pointwise sums of maps split. -/
theorem sum_map_add (ks : List String) (f g : String → ℕ) :
    (ks.map fun d => f d + g d).sum = (ks.map f).sum + (ks.map g).sum := by
  induction ks with
  | nil => rfl
  | cons k ks ih =>
    simp only [List.map_cons, List.sum_cons, ih]
    omega

/-- Over a duplicate-free key list containing `x`, the 0/1 indicator of `x`
sums to exactly 1. -/
theorem sum_key_indicator {x : String} {ks : List String} (hnd : ks.Nodup)
    (hx : x ∈ ks) :
    (ks.map fun d => if x == d then (1 : ℕ) else 0).sum = 1 := by
  induction ks with
  | nil => cases hx
  | cons k ks ih =>
    rcases List.nodup_cons.1 hnd with ⟨hk, hnd'⟩
    rcases List.mem_cons.1 hx with rfl | hx'
    · simp only [List.map_cons, List.sum_cons, beq_self_eq_true, if_pos]
      have hz : (ks.map fun d => if x == d then (1 : ℕ) else 0).sum = 0 := by
        refine List.sum_eq_zero fun n hn => ?_
        rcases List.mem_map.1 hn with ⟨d, hd, rfl⟩
        have hne : ¬(x = d) := fun he => hk (he ▸ hd)
        simp [hne]
      rw [hz]
    · have hne : ¬((x == k) = true) := by
        simp only [beq_iff_eq]
        exact fun he => hk (he ▸ hx')
      simp only [List.map_cons, List.sum_cons, if_neg hne, ih hnd' hx', Nat.zero_add]

/-- Partition counting: grouping a record list by a duplicate-free key list
that covers all its dates accounts for every record exactly once. -/
theorem sum_group_lengths (l : List ARecord) (ks : List String) (hnd : ks.Nodup)
    (hcov : ∀ r ∈ l, r.close_approach_date ∈ ks) :
    (ks.map fun d => (l.filter fun r => r.close_approach_date == d).length).sum =
      l.length := by
  induction l with
  | nil => simp
  | cons a l ih =>
    have hmap : (ks.map fun d =>
        ((a :: l).filter fun r => r.close_approach_date == d).length) =
        ks.map fun d => (if a.close_approach_date == d then 1 else 0) +
          (l.filter fun r => r.close_approach_date == d).length := by
      refine List.map_congr_left fun d _ => ?_
      rw [List.filter_cons]
      by_cases h : (a.close_approach_date == d) = true
      · simp [h, Nat.add_comm]
      · simp [h]
    rw [hmap, sum_map_add, sum_key_indicator hnd (hcov a (List.mem_cons_self a l)),
      ih fun r hr => hcov r (List.mem_cons_of_mem a hr)]
    rw [List.length_cons]
    omega

/-- The aggregate's key column is exactly the distinct dates of the input. -/
theorem daily_counts_keys (df : List ARecord) :
    (daily_counts df).map (·.close_approach_date) =
      (df.map (·.close_approach_date)).dedup := by
  rw [daily_counts, List.map_map]
  exact List.map_id'' (fun d => rfl) _

/-- C7: daily aggregation yields exactly one group per distinct
`close_approach_date` string of the input; each group's `count` is the number
of records with that date, its `hazardous` field is both the sum of the 0/1
hazard flags and the number of hazardous records of the group, its
`avg_distance` is the mean miss distance of the group, and the per-date
counts sum to the total record count. -/
theorem daily_counts_spec (df : List ARecord) :
    ((daily_counts df).map (·.close_approach_date)).Nodup ∧
    (∀ d : String, (∃ row ∈ daily_counts df, row.close_approach_date = d) ↔
      ∃ r ∈ df, r.close_approach_date = d) ∧
    (∀ row ∈ daily_counts df,
      row.count =
        (df.filter fun r => r.close_approach_date == row.close_approach_date).length ∧
      row.hazardous = ((df.filter fun r =>
        r.close_approach_date == row.close_approach_date).map
          fun r => if r.is_potentially_hazardous then 1 else 0).sum ∧
      row.hazardous = ((df.filter fun r =>
        r.close_approach_date == row.close_approach_date).filter
          fun r => r.is_potentially_hazardous).length ∧
      row.avg_distance = ((df.filter fun r =>
        r.close_approach_date == row.close_approach_date).map
          (·.miss_distance_km)).sum /
        ((df.filter fun r =>
          r.close_approach_date == row.close_approach_date).length : ℚ)) ∧
    ((daily_counts df).map (·.count)).sum = df.length := by
  refine ⟨?_, ?_, ?_, ?_⟩
  · rw [daily_counts_keys]
    exact List.nodup_dedup _
  · intro d
    constructor
    · rintro ⟨row, hrow, rfl⟩
      rcases List.mem_map.1 hrow with ⟨d', hd', rfl⟩
      rcases List.mem_map.1 (List.mem_dedup.1 hd') with ⟨r, hr, hdr⟩
      exact ⟨r, hr, hdr⟩
    · rintro ⟨r, hr, rfl⟩
      exact ⟨dailyRowOf df r.close_approach_date,
        List.mem_map_of_mem _ (List.mem_dedup.2 (List.mem_map_of_mem _ hr)), rfl⟩
  · intro row hrow
    rcases List.mem_map.1 hrow with ⟨d, _, rfl⟩
    exact ⟨rfl, rfl, sum_bool_indicator _, rfl⟩
  · have hs : (daily_counts df).map (·.count) =
        (df.map (·.close_approach_date)).dedup.map
          fun d => (df.filter fun r => r.close_approach_date == d).length := by
      rw [daily_counts, List.map_map]
      rfl
    rw [hs]
    exact sum_group_lengths df _ (List.nodup_dedup _)
      fun r hr => List.mem_dedup.2 (List.mem_map_of_mem _ hr)

instance : IsTotal ARecord missLE :=
  ⟨fun a b => le_total a.miss_distance_km b.miss_distance_km⟩

instance : IsTrans ARecord missLE :=
  ⟨fun _ _ _ hab hbc => le_trans hab hbc⟩

/-- Rounding half to even moves a rational by at most 1/2. -/
theorem roundHalfEven_close (q : ℚ) : |(roundHalfEven q : ℚ) - q| ≤ 1/2 := by
  have h0 : (0 : ℚ) ≤ q - ⌊q⌋ := sub_nonneg.2 (Int.floor_le q)
  have h1 : q - ⌊q⌋ < 1 := by
    have := Int.lt_floor_add_one q
    linarith
  rw [roundHalfEven]
  by_cases hlt : q - ⌊q⌋ < 1/2
  · rw [if_pos hlt, abs_le]
    constructor <;> linarith
  · rw [if_neg hlt]
    by_cases hgt : q - ⌊q⌋ > 1/2
    · rw [if_pos hgt, abs_le]
      constructor <;> [push_cast; push_cast] <;> linarith
    · rw [if_neg hgt]
      have heq : q - ⌊q⌋ = 1/2 := le_antisymm (not_lt.1 hgt) (not_lt.1 hlt)
      by_cases he : (⌊q⌋ : ℤ) % 2 = 0
      · rw [if_pos he, abs_le]
        constructor <;> linarith
      · rw [if_neg he, abs_le]
        constructor <;> [push_cast; push_cast] <;> linarith

/-- Rounding to 2 decimals moves a rational by at most 1/200. -/
theorem round2_close (q : ℚ) : |round2 q - q| ≤ 1/200 := by
  rw [round2]
  have h := roundHalfEven_close (q * 100)
  have heq : (roundHalfEven (q * 100) : ℚ) / 100 - q =
      ((roundHalfEven (q * 100) : ℚ) - q * 100) / 100 := by
    ring
  rw [heq, abs_div, abs_of_pos (by norm_num : (0 : ℚ) < 100)]
  linarith

/-- C8: the display projection is the filtered set sorted by
`miss_distance_km` ascending (a permutation of the input, pairwise
non-decreasing), and each row derives `miss_distance_Mkm` as
`miss_distance_km / 1_000_000` rounded to 2 decimal places (an integer
number of hundredths, within 1/200 of the exact quotient) and replaces the
boolean hazard flag by the categorical `"Yes"`/`"No"` label. -/
theorem display_df_spec (df : List ARecord) :
    (sortByMissAsc df).Perm df ∧
    (sortByMissAsc df).Pairwise missLE ∧
    display_df df = (sortByMissAsc df).map toDisplayRow ∧
    ∀ r : ARecord,
      (toDisplayRow r).miss_distance_Mkm = round2 (r.miss_distance_km / 1000000) ∧
      |(toDisplayRow r).miss_distance_Mkm - r.miss_distance_km / 1000000| ≤ 1/200 ∧
      (∃ z : ℤ, (toDisplayRow r).miss_distance_Mkm = (z : ℚ) / 100) ∧
      (toDisplayRow r).hazardous_label =
        (if r.is_potentially_hazardous then "Yes" else "No") := by
  refine ⟨List.perm_insertionSort missLE df, List.sorted_insertionSort missLE df,
    rfl, fun r => ⟨rfl, round2_close _, ⟨roundHalfEven (r.miss_distance_km / 1000000 * 100), rfl⟩,
    rfl⟩⟩
